import Mathlib

/-
Verification of the ledger reconciliation and aggregation engine of the
invoice-accounting app (src/app.py): the save-time row validation, the
append/bootstrap persistence step, read-time deduplication, per-owner
scoping, monthly aggregation, account purge, and the login/session owner
identifier.  Column names from the sheet are translated as:
日期 = date, 品項 = name, 數量 = quantity, 類別 = category, 金額 = amount,
使用者 = owner.
-/

/-! ## String helpers

pandas and Python string primitives are modelled on the character list of
a `String`, so that every definition evaluates inside the kernel.  They
model the behaviour of the library calls on the value shapes this app
produces: integer literals for numeric cells and `YYYY-MM-DD` dates. -/

/-- Character-level whitespace trim, modelling Python str.strip(). -/
def trimChars (cs : List Char) : List Char :=
  ((cs.dropWhile Char.isWhitespace).reverse.dropWhile Char.isWhitespace).reverse

/-- Python str.strip() on a String. -/
def strTrim (s : String) : String := ⟨trimChars s.data⟩

/-- Python str.lower() on a String. -/
def strLower (s : String) : String := ⟨s.data.map Char.toLower⟩

/-- Read a non-empty all-digit character list as a natural number. -/
def digitsToNat? (cs : List Char) : Option Nat :=
  if cs = [] then none
  else cs.foldl (fun acc c => match acc with
    | none => none
    | some n => if c.isDigit then some (10 * n + (c.toNat - 48)) else none) (some 0)

/-- pd.to_numeric(errors='coerce') on one cell, modelled for the integer
literals this ledger stores: an optional minus sign and digits parse to an
integer, anything else coerces to NaN, i.e. `none`. -/
def parseInt? (s : String) : Option Int :=
  match s.data with
  | '-' :: rest => (digitsToNat? rest).map (fun n => -(n : Int))
  | cs => (digitsToNat? cs).map (fun n => (n : Int))

/-- Split a character list at every occurrence of the separator. -/
def splitOnCharAux (sep : Char) : List Char → List Char → List (List Char)
  | [], acc => [acc.reverse]
  | c :: rest, acc =>
    if c = sep then acc.reverse :: splitOnCharAux sep rest []
    else splitOnCharAux sep rest (c :: acc)

/-- Split a string at a separator character. -/
def splitOnChar (sep : Char) (s : String) : List (List Char) :=
  splitOnCharAux sep s.data []

/-- pd.to_datetime(errors='coerce') on one cell, modelled for the
`YYYY-MM-DD` layout the app writes: three dash-separated numeric fields
with a plausible month and day parse to a (year, month, day) triple,
anything else coerces to NaT, i.e. `none`. -/
def parseDate? (s : String) : Option (Nat × Nat × Nat) :=
  match (splitOnChar '-' s).map digitsToNat? with
  | [some y, some m, some d] =>
    if 1 ≤ m ∧ m ≤ 12 ∧ 1 ≤ d ∧ d ≤ 31 then some (y, m, d) else none
  | _ => none

/-! ## Ledger data model -/

/-- One raw row of worksheet 工作表1 as returned by get_all_records(): a bag
of named cells, each modelled as its cell text. -/
structure RawRow where
  date : String
  name : String
  quantity : String
  category : String
  amount : String
  owner : String
deriving DecidableEq

/-- One validated dashboard row, after the coercions of load_data
(src/app.py lines 320-322) succeeded. -/
structure Row where
  date : Nat × Nat × Nat
  name : String
  quantity : Int
  category : String
  amount : Int
  owner : String
deriving DecidableEq

/-- Coercion-and-validation step of load_data (lines 320-323): 金額 and 數量
through pd.to_numeric(errors='coerce'), 日期 through
pd.to_datetime(errors='coerce'), then dropna(subset=required_cols) removes
every row in which a coercion produced NaN/NaT.  The string columns
品項/使用者 coming from get_all_records are plain strings, never NaN, so
dropna never fires on them. -/
def coerceRow (r : RawRow) : Option Row :=
  match parseInt? r.amount, parseInt? r.quantity, parseDate? r.date with
  | some a, some q, some d => some ⟨d, r.name, q, r.category, a, r.owner⟩
  | _, _, _ => none

/-- The deduplication key of drop_duplicates(subset=required_cols): the
(date, name, quantity, amount, owner) tuple of a coerced row.  類別
(category) is not part of the subset.  The string fields are compared
exactly as stored. -/
def rowKey (r : Row) : (Nat × Nat × Nat) × String × Int × Int × String :=
  (r.date, r.name, r.quantity, r.amount, r.owner)

/-- The comparison key the spec describes for duplicates: the same tuple
with the string fields trimmed first. -/
def trimKey (r : Row) : (Nat × Nat × Nat) × String × Int × Int × String :=
  (r.date, strTrim r.name, r.quantity, r.amount, strTrim r.owner)

/-- df.drop_duplicates(subset=required_cols, keep='first') (line 324),
walking the rows in order with the set of keys already seen; a row whose
key was seen before is dropped, every other row is kept. -/
def dedupAux (seen : List ((Nat × Nat × Nat) × String × Int × Int × String)) :
    List Row → List Row
  | [] => []
  | r :: rs =>
    if rowKey r ∈ seen then dedupAux seen rs
    else r :: dedupAux (rowKey r :: seen) rs

/-- Read-time deduplication of the loaded ledger (line 324). -/
def drop_duplicates (rows : List Row) : List Row := dedupAux [] rows

/-- Deduplication as the spec words it, on untrimmed keys: keep the first
occurrence, drop every later row carrying the same key, recurse on what is
left. -/
def keepFirstOcc : List Row → List Row
  | [] => []
  | r :: rs => r :: keepFirstOcc (rs.filter (fun x => decide (rowKey x ≠ rowKey r)))
termination_by l => l.length
decreasing_by
  simp only [List.length_cons]
  have := List.length_filter_le (fun x => decide (rowKey x ≠ rowKey r)) rs
  omega

/-- load_data (lines 307-330): read all records of 工作表1, coerce and
dropna, drop duplicates, and report original_rows - len(df) as the removed
count.  An empty record list returns ([], 0); the required-columns check of
line 316 always passes here because a RawRow carries all named fields. -/
def load_data (data : List RawRow) : List Row × Nat :=
  if data = [] then ([], 0)
  else
    let deduped := drop_duplicates (data.filterMap coerceRow)
    (deduped, data.length - deduped.length)

/-- Line 335: df_all[df_all['使用者'] == username].copy() — the pure
per-owner scope filter over the loaded dashboard view. -/
def scope_to_owner (rows : List Row) (username : String) : List Row :=
  rows.filter (fun r => r.owner == username)

/-- Line 348: df['日期'].dt.to_period('M') — a row's date truncated to its
year-month. -/
def monthKey (r : Row) : Nat × Nat := (r.date.1, r.date.2.1)

/-- Line 354: df['金額'].sum(). -/
def total_expense (rows : List Row) : Int := (rows.map Row.amount).sum

/-- Line 355: df.groupby('月份')['金額'].sum() — one entry per distinct
year-month occurring in the rows, holding the sum of that month's amounts
(iteration order over months is the caller's concern). -/
def monthly_total (rows : List Row) : List ((Nat × Nat) × Int) :=
  ((rows.map monthKey).dedup).map
    (fun k => (k, ((rows.filter (fun r => monthKey r == k)).map Row.amount).sum))

/-! ## Save step (page_invoice_processing) -/

/-- One row of the edited table produced by st.data_editor (lines 272-275):
the number cells 金額/數量 hold a numeric value or NaN, a text cell of a
dynamically added row may be empty, i.e. `none`. -/
structure EditedRow where
  date : String
  name : Option String
  quantity : Option Int
  category : String
  amount : Option Int
deriving DecidableEq

/-- A row as stamped for persistence by the save step (lines 280-284). -/
structure SavedRow where
  date : String
  name : String
  quantity : Int
  category : String
  amount : Int
  owner : String
deriving DecidableEq

/-- Save-time filtering (lines 280-284): dropna(subset=['金額','品項','數量']),
then keep only rows whose 品項.str.strip() is non-empty, cast 金額 and 數量
to int, and stamp 使用者 = username onto every surviving row. -/
def save_rows (username : String) (edited : List EditedRow) : List SavedRow :=
  (((edited.filter (fun r => r.amount.isSome && r.name.isSome && r.quantity.isSome)).filter
    (fun r => !(strTrim (r.name.getD "") == ""))).map
    (fun r => ⟨r.date, r.name.getD "", r.quantity.getD 0, r.category, r.amount.getD 0,
               username⟩))

/-! ## Worksheet persistence -/

/-- A gspread worksheet: its rows in order, each a list of cell strings; row
1, when present, is the header row. -/
structure Worksheet where
  cells : List (List String)
deriving DecidableEq

/-- worksheet.row_values(1): the first row, [] on an empty sheet. -/
def row_values_1 (ws : Worksheet) : List String := ws.cells.headD []

/-- Persistence branch of the save step (lines 288-294): when row 1 is
empty or lacks the 使用者 column the sheet is cleared and header :: rows is
written from A1 (bootstrap); otherwise append_rows places the new rows
after all existing rows. -/
def save_to_sheet (ws : Worksheet) (header : List String) (rows : List (List String)) :
    Worksheet :=
  if row_values_1 ws = [] ∨ "使用者" ∉ row_values_1 ws then ⟨header :: rows⟩
  else ⟨ws.cells ++ rows⟩

/-- Schema self-healing of get_users_worksheet (lines 98-100): when the
header lacks 'avatar_base64', update_cell(1, len(header)+1, ...) writes it
as a new trailing header cell; all other rows are untouched. -/
def ensure_avatar_column (ws : Worksheet) : Worksheet :=
  if "avatar_base64" ∈ row_values_1 ws then ws
  else match ws.cells with
    | [] => ⟨[["avatar_base64"]]⟩
    | h :: rest => ⟨(h ++ ["avatar_base64"]) :: rest⟩

/-! ## Users table and account purge -/

/-- One record of the Users worksheet. -/
structure UserRec where
  username : String
  hashed_password : String
  avatar_base64 : String
deriving DecidableEq

/-- gspread users_ws.find(query) followed by delete_rows(cell.row)
(lines 194-195): scan every cell of the sheet in row-major order — the
header row included, and within a row the hash and avatar cells too — and
remove the entire row holding the first cell equal to the query; `none`
models CellNotFound. -/
def delete_first_matching_row (q : String) :
    List (List String) → Option (List (List String))
  | [] => none
  | row :: rest =>
    if q ∈ row then some rest
    else (delete_first_matching_row q rest).map (fun rs => row :: rs)

/-- The two collections delete_user touches: the full cell grid of the
Users worksheet — row 1 is the header ["username", "hashed_password",
"avatar_base64"], every later row a credential row whose first cell is the
username — and the ledger rows of 工作表1 (the ledger's header row is
implicit in this model). -/
structure AppState where
  users_ws : List (List String)
  ledger : List SavedRow
deriving DecidableEq

/-- delete_user (lines 185-221): users_ws.find(username_to_delete) searches
the whole Users sheet cell-by-cell in row-major order — it can hit the
header row or a hash/avatar cell just as well as a username cell — and
delete_rows removes the entire row of the first match; CellNotFound
returns (false, unchanged state).  Then 工作表1 is loaded, the rows whose
使用者 differs from the username are kept, the sheet is cleared and the
remainder written back under the original header (or just the header row
when nothing remains). -/
def delete_user (username_to_delete : String) (s : AppState) : Bool × AppState :=
  match delete_first_matching_row username_to_delete s.users_ws with
  | none => (false, s)
  | some rest =>
    (true, ⟨rest, s.ledger.filter (fun r => !(r.owner == username_to_delete))⟩)

/-! ## Login -/

/-- check_login (lines 107-118): scan the Users records in order; a record
matches when its stored username equals the typed one case-insensitively
and its hashed_password equals the hash of the typed password; on a match
return (True, stored username) — the casing exactly as stored in the table.
hash_password (SHA-256) is abstracted as a parameter. -/
def check_login (hash_password : String → String) (users : List UserRec)
    (username password : String) : Bool × Option String :=
  match users.find? (fun u =>
      strLower u.username == strLower username &&
      u.hashed_password == hash_password password) with
  | some u => (true, some u.username)
  | none => (false, none)

/-- The password_form submit handler (lines 518-524): on a successful login
the session records st.session_state.username = correct_username, the name
check_login returned.  The result is the owner identifier the session will
use for all ledger scoping, or none when the login failed. -/
def password_form_handler (hash_password : String → String) (users : List UserRec)
    (selected_user password : String) : Option String :=
  match check_login hash_password users selected_user password with
  | (true, some s) => some s
  | _ => none

/-! ## AI extraction normalization -/

/-- One raw item dict of the AI response; pd.DataFrame turns a missing key
into NaN, modelled by `none`. -/
structure RawItem where
  name : Option String
  quantity : Option Int
  category : Option String
  amount : Option Int
deriving DecidableEq

/-- The JSON object parse_with_gemini hands back: a nullable invoice_date
and, when the 'items' key is present, its list.  A non-JSON or non-dict
response surfaces as `none` at the call site. -/
structure ParsedData where
  invoice_date : Option String
  items : Option (List RawItem)
deriving DecidableEq

/-- A row of st.session_state.parsed_df, in the column order 日期 品項 數量
類別 金額 of line 268. -/
structure ParsedRow where
  date : String
  name : Option String
  quantity : Option Int
  category : Option String
  amount : Option Int
deriving DecidableEq

/-- Lines 258-268: when the parse result is falsy, not a dict, lacks an
'items' key, or its items list is empty, build the single manual
placeholder row 日期=today, 品項='', 數量=1, 類別='其他', 金額=0; otherwise
build one row per item and stamp every row's 日期 with invoice_date, or
with today when invoice_date is null or empty (Python `or`). -/
def parse_result_rows (today : String) (parsed : Option ParsedData) : List ParsedRow :=
  match parsed with
  | none => [⟨today, some "", some 1, some "其他", some 0⟩]
  | some p =>
    match p.items with
    | none => [⟨today, some "", some 1, some "其他", some 0⟩]
    | some [] => [⟨today, some "", some 1, some "其他", some 0⟩]
    | some items =>
      let invoice_date := match p.invoice_date with
        | some d => if d = "" then today else d
        | none => today
      items.map (fun it => ⟨invoice_date, it.name, it.quantity, it.category, it.amount⟩)

/-! ## Deduplication lemmas -/

theorem dedupAux_sublist (rs : List Row) :
    ∀ seen, (dedupAux seen rs).Sublist rs := by
  induction rs with
  | nil => intro seen; simp [dedupAux]
  | cons r rs ih =>
    intro seen
    by_cases h : rowKey r ∈ seen
    · simp only [dedupAux, if_pos h]
      exact (ih seen).cons r
    · simp only [dedupAux, if_neg h]
      exact (ih (rowKey r :: seen)).cons₂ r

theorem dedupAux_idem (rs : List Row) :
    ∀ seen, dedupAux seen (dedupAux seen rs) = dedupAux seen rs := by
  induction rs with
  | nil => intro seen; simp [dedupAux]
  | cons r rs ih =>
    intro seen
    by_cases h : rowKey r ∈ seen
    · simp only [dedupAux, if_pos h]
      exact ih seen
    · simp only [dedupAux, if_neg h]
      rw [ih (rowKey r :: seen)]

theorem dedupAux_eq_keepFirstOcc (rs : List Row) :
    ∀ seen, dedupAux seen rs =
      keepFirstOcc (rs.filter (fun r => decide (rowKey r ∉ seen))) := by
  induction rs with
  | nil => intro seen; simp [dedupAux, keepFirstOcc]
  | cons r rs ih =>
    intro seen
    by_cases h : rowKey r ∈ seen
    · have hf : decide (rowKey r ∉ seen) = false := by simp [h]
      rw [dedupAux, if_pos h, List.filter_cons, hf]
      simp only [Bool.false_eq_true, if_false]
      exact ih seen
    · have hpred : ∀ a : Row,
          decide (rowKey a ∉ rowKey r :: seen) =
            (decide (rowKey a ≠ rowKey r) && decide (rowKey a ∉ seen)) := by
        intro a
        by_cases h1 : rowKey a = rowKey r <;> by_cases h2 : rowKey a ∈ seen <;>
          simp [List.mem_cons, h1, h2]
      have ht : decide (rowKey r ∉ seen) = true := by simp [h]
      rw [dedupAux, if_neg h, List.filter_cons, ht]
      simp only [if_true]
      simp only [keepFirstOcc, List.filter_filter]
      rw [ih (rowKey r :: seen)]
      exact congrArg (fun l => r :: keepFirstOcc l)
        (List.filter_congr (fun a _ => hpred a))

/-- C4: deduplication is idempotent — applying the drop_duplicates filter to
an already-deduplicated row sequence returns the same sequence unchanged:
drop_duplicates (drop_duplicates R) = drop_duplicates R for every R. -/
theorem dedup_idempotent (rows : List Row) :
    drop_duplicates (drop_duplicates rows) = drop_duplicates rows :=
  dedupAux_idem rows []

/-- C3 (amended): deduplication treats two rows as duplicates exactly when
their (date, name, quantity, amount, owner) tuples are equal after numeric
and date coercion, with the string fields compared exactly as stored (no
trimming); it keeps the first occurrence in ledger order, drops subsequent
ones, and the survivors form a sublist of the input, so their original
relative order is preserved.  keepFirstOcc is the keep-first/drop-later
policy stated by the spec on those untrimmed keys. -/
theorem dedup_keeps_first_occurrence (rows : List Row) :
    drop_duplicates rows = keepFirstOcc rows ∧
    (drop_duplicates rows).Sublist rows := by
  constructor
  · have h := dedupAux_eq_keepFirstOcc rows []
    simpa using h
  · exact dedupAux_sublist rows []

/-- C3 (counterexample): two ledger rows whose key tuples agree after
trimming the name — "Milk" versus "Milk " — but differ as stored are NOT
treated as duplicates by the code: drop_duplicates keeps both, while the
claim as stated requires the second to be dropped. -/
theorem dedup_no_trimming_counterexample :
    trimKey ⟨(2024, 3, 1), "Milk", 1, "Food", 80, "alice"⟩ =
      trimKey ⟨(2024, 3, 1), "Milk ", 1, "Food", 80, "alice"⟩ ∧
    (⟨(2024, 3, 1), "Milk", 1, "Food", 80, "alice"⟩ : Row) ≠
      ⟨(2024, 3, 1), "Milk ", 1, "Food", 80, "alice"⟩ ∧
    drop_duplicates
        [⟨(2024, 3, 1), "Milk", 1, "Food", 80, "alice"⟩,
         ⟨(2024, 3, 1), "Milk ", 1, "Food", 80, "alice"⟩] =
      [⟨(2024, 3, 1), "Milk", 1, "Food", 80, "alice"⟩,
       ⟨(2024, 3, 1), "Milk ", 1, "Food", 80, "alice"⟩] := by
  exact ⟨by decide, by decide, by decide⟩

/-- C6 (amended): the count load_data reports is the total number of rows
removed between the raw sheet and the returned view — rows dropped by the
coercion/dropna validation plus rows dropped as duplicates — so it equals
the number of duplicates only when every row passes validation; in
particular a ledger holding exactly two byte-identical valid rows yields
one row and a reported count of 1. -/
theorem load_data_removed_count :
    (∀ data : List RawRow, data ≠ [] →
      (load_data data).2 =
        (data.length - (data.filterMap coerceRow).length) +
        ((data.filterMap coerceRow).length -
          (drop_duplicates (data.filterMap coerceRow)).length)) ∧
    (∀ (r : RawRow) (v : Row), coerceRow r = some v →
      load_data [r, r] = ([v], 1)) := by
  constructor
  · intro data hd
    have h1 : (data.filterMap coerceRow).length ≤ data.length :=
      List.length_filterMap_le coerceRow data
    have h2 : (drop_duplicates (data.filterMap coerceRow)).length ≤
        (data.filterMap coerceRow).length :=
      (dedupAux_sublist (data.filterMap coerceRow) []).length_le
    simp only [load_data, if_neg hd]
    omega
  · intro r v hv
    simp [load_data, hv, drop_duplicates, dedupAux]

/-- C6 (witness): the decomposition at a one-row ledger whose amount "abc"
fails coercion, and scenario C at two byte-identical valid rows. -/
theorem load_data_removed_count_witness :
    (load_data [⟨"2024-01-01", "x", "1", "其他", "abc", "alice"⟩]).2 =
      (([⟨"2024-01-01", "x", "1", "其他", "abc", "alice"⟩] : List RawRow).length -
        (([⟨"2024-01-01", "x", "1", "其他", "abc", "alice"⟩] :
          List RawRow).filterMap coerceRow).length) +
      ((([⟨"2024-01-01", "x", "1", "其他", "abc", "alice"⟩] :
          List RawRow).filterMap coerceRow).length -
        (drop_duplicates (([⟨"2024-01-01", "x", "1", "其他", "abc", "alice"⟩] :
          List RawRow).filterMap coerceRow)).length) ∧
    load_data [⟨"2024-03-01", "Milk", "2", "Food", "80", "alice"⟩,
               ⟨"2024-03-01", "Milk", "2", "Food", "80", "alice"⟩] =
      ([⟨(2024, 3, 1), "Milk", 2, "Food", 80, "alice"⟩], 1) :=
  ⟨load_data_removed_count.1 [⟨"2024-01-01", "x", "1", "其他", "abc", "alice"⟩]
      (by decide),
   load_data_removed_count.2 ⟨"2024-03-01", "Milk", "2", "Food", "80", "alice"⟩
      ⟨(2024, 3, 1), "Milk", 2, "Food", 80, "alice"⟩ (by decide)⟩

/-- C6 (counterexample): on a ledger whose single row carries the
non-numeric amount "abc", load_data reports 1 removed row although
deduplication dropped nothing — validation dropped the row, so the reported
count is not the number of duplicate rows dropped. -/
theorem load_data_count_counterexample :
    load_data [⟨"2024-01-01", "x", "1", "其他", "abc", "alice"⟩] = ([], 1) ∧
    ([⟨"2024-01-01", "x", "1", "其他", "abc", "alice"⟩] :
        List RawRow).filterMap coerceRow = [] ∧
    drop_duplicates (([⟨"2024-01-01", "x", "1", "其他", "abc", "alice"⟩] :
        List RawRow).filterMap coerceRow) =
      ([⟨"2024-01-01", "x", "1", "其他", "abc", "alice"⟩] :
        List RawRow).filterMap coerceRow := by
  exact ⟨by decide, by decide, by decide⟩

/-- C8: the dashboard user-scope filter returns exactly the rows of the
loaded view whose owner field equals the session username by exact
character comparison (no case folding); being a pure filter it does not
change the loaded view or the store. -/
theorem scope_to_owner_mem (rows : List Row) (username : String) (r : Row) :
    r ∈ scope_to_owner rows username ↔ r ∈ rows ∧ r.owner = username := by
  simp [scope_to_owner, List.mem_filter, beq_iff_eq]

/-! ## Aggregation lemmas -/

theorem sum_amount_filter_split (p : Row → Bool) (l : List Row) :
    ((l.filter p).map Row.amount).sum +
      ((l.filter (fun r => !(p r))).map Row.amount).sum =
    (l.map Row.amount).sum := by
  induction l with
  | nil => simp
  | cons a l ih => by_cases h : p a <;> simp [List.filter_cons, h] <;> omega

theorem sum_over_keys (ks : List (Nat × Nat)) :
    ∀ l : List Row, ks.Nodup → (∀ r ∈ l, monthKey r ∈ ks) →
      (ks.map (fun k =>
        ((l.filter (fun r => monthKey r == k)).map Row.amount).sum)).sum =
        (l.map Row.amount).sum := by
  induction ks with
  | nil =>
    intro l _ hl
    have hnil : l = [] := by
      cases l with
      | nil => rfl
      | cons a l => exact absurd (hl a (by simp)) (by simp)
    simp [hnil]
  | cons k ks ih =>
    intro l hnd hl
    have hk : k ∉ ks := (List.nodup_cons.mp hnd).1
    have htail : ∀ k' ∈ ks,
        ((l.filter (fun r => !(monthKey r == k))).filter
          (fun r => monthKey r == k')) =
        l.filter (fun r => monthKey r == k') := by
      intro k' hk'
      rw [List.filter_filter]
      refine List.filter_congr ?_
      intro a _
      by_cases hm : monthKey a = k'
      · have hne : k' ≠ k := by
          rintro rfl; exact hk hk'
        simp [hm, hne]
      · simp [hm]
    have hmap :
        ks.map (fun k' =>
          ((l.filter (fun r => monthKey r == k')).map Row.amount).sum) =
        ks.map (fun k' =>
          (((l.filter (fun r => !(monthKey r == k))).filter
            (fun r => monthKey r == k')).map Row.amount).sum) := by
      refine List.map_congr_left ?_
      intro k' hk'
      rw [htail k' hk']
    have hcov : ∀ r ∈ l.filter (fun r => !(monthKey r == k)), monthKey r ∈ ks := by
      intro r hr
      rw [List.mem_filter] at hr
      have := hl r hr.1
      rcases List.mem_cons.mp this with h | h
      · exfalso
        have := hr.2
        rw [h] at this
        simp at this
      · exact h
    have hih := ih (l.filter (fun r => !(monthKey r == k))) (List.nodup_cons.mp hnd).2 hcov
    have hsplit := sum_amount_filter_split (fun r => monthKey r == k) l
    simp only [List.map_cons, List.sum_cons, hmap, hih]
    omega

/-- C9: for the owner-scoped validated row set, the sum of the per-month
sums produced by grouping on year-month equals the total over all rows:
sum of monthly_total equals total_expense. -/
theorem monthly_sums_eq_total (rows : List Row) :
    ((monthly_total rows).map Prod.snd).sum = total_expense rows := by
  have hnd : ((rows.map monthKey).dedup).Nodup := List.nodup_dedup _
  have hcov : ∀ r ∈ rows, monthKey r ∈ (rows.map monthKey).dedup := by
    intro r hr
    exact List.mem_dedup.mpr (List.mem_map_of_mem monthKey hr)
  have h := sum_over_keys ((rows.map monthKey).dedup) rows hnd hcov
  simpa [monthly_total, total_expense, List.map_map, Function.comp] using h

/-- C1 (amended): every row persisted by the save step has a name that is
non-empty after trimming, carries the logged-in username as owner, and
takes its integer amount and quantity from non-null cells of the edited
table; rows with a null amount, null name, null quantity, or
whitespace-only name are excluded.  No lower bounds are enforced: the save
step does not drop rows whose amount is 0, nor reject amount < 0 or
quantity < 1. -/
theorem save_rows_persisted_shape (username : String) (edited : List EditedRow) :
    ∀ s ∈ save_rows username edited,
      strTrim s.name ≠ "" ∧ s.owner = username ∧
      ∃ e ∈ edited, e.date = s.date ∧ e.category = s.category ∧
        e.name = some s.name ∧ e.quantity = some s.quantity ∧
        e.amount = some s.amount := by
  intro s hs
  simp only [save_rows, List.mem_map] at hs
  obtain ⟨e, he, rfl⟩ := hs
  rw [List.mem_filter] at he
  obtain ⟨he1, hstrip⟩ := he
  rw [List.mem_filter] at he1
  obtain ⟨hmem, hsome⟩ := he1
  simp only [Bool.and_eq_true, Option.isSome_iff_exists] at hsome
  obtain ⟨⟨⟨a, ha⟩, ⟨nm, hn⟩⟩, ⟨q, hq⟩⟩ := hsome
  refine ⟨?_, rfl, e, hmem, rfl, rfl, ?_, ?_, ?_⟩
  · simpa using hstrip
  · simp [hn]
  · simp [hq]
  · simp [ha]

/-- C1 (witness): the persisted-row shape at a concrete one-row edited
table. -/
theorem save_rows_persisted_shape_witness :
    strTrim "item" ≠ "" ∧ "alice" = "alice" ∧
    ∃ e ∈ ([⟨"2024-01-01", some "item", some 1, "其他", some 5⟩] :
        List EditedRow),
      e.date = "2024-01-01" ∧ e.category = "其他" ∧
      e.name = some "item" ∧ e.quantity = some 1 ∧ e.amount = some 5 :=
  save_rows_persisted_shape "alice"
    [⟨"2024-01-01", some "item", some 1, "其他", some 5⟩]
    ⟨"2024-01-01", "item", 1, "其他", 5, "alice"⟩ (by decide)

/-- C1 (counterexample): the save step persists a row whose amount is 0 (the
drop-zero rule is not applied before persistence) and a row whose amount is
negative and whose quantity is 0 — contradicting the claimed invariants
quantity ≥ 1, amount ≥ 0 and amount > 0 after drop-zero. -/
theorem save_rows_bounds_counterexample :
    save_rows "alice"
        [⟨"2024-01-01", some "item", some 1, "其他", some 0⟩,
         ⟨"2024-01-02", some "thing", some 0, "其他", some (-3)⟩] =
      [⟨"2024-01-01", "item", 1, "其他", 0, "alice"⟩,
       ⟨"2024-01-02", "thing", 0, "其他", -3, "alice"⟩] := by
  decide

/-- C5: when the ledger sheet already has a header containing the 使用者
column, the save step appends: all previously stored rows are kept as a
prefix in their original relative order and the new rows land after them;
when the sheet has no header row or its header lacks the owner column, the
step bootstraps by writing a header row followed by the new data; and the
separate ensure-column self-healing of the Users sheet adds
'avatar_base64' as a trailing header cell without disturbing any data row,
doing nothing when the column already exists. -/
theorem save_to_sheet_contract :
    (∀ (ws : Worksheet) (header : List String) (rows : List (List String)),
        "使用者" ∈ row_values_1 ws →
        (save_to_sheet ws header rows).cells = ws.cells ++ rows) ∧
    (∀ (ws : Worksheet) (header : List String) (rows : List (List String)),
        row_values_1 ws = [] ∨ "使用者" ∉ row_values_1 ws →
        (save_to_sheet ws header rows).cells = header :: rows) ∧
    (∀ ws : Worksheet, "avatar_base64" ∉ row_values_1 ws →
        row_values_1 (ensure_avatar_column ws) =
          row_values_1 ws ++ ["avatar_base64"] ∧
        (ensure_avatar_column ws).cells.tail = ws.cells.tail) ∧
    (∀ ws : Worksheet, "avatar_base64" ∈ row_values_1 ws →
        ensure_avatar_column ws = ws) := by
  refine ⟨?_, ?_, ?_, ?_⟩
  · intro ws header rows h
    have hc : ¬(row_values_1 ws = [] ∨ "使用者" ∉ row_values_1 ws) := by
      push_neg
      exact ⟨List.ne_nil_of_mem h, h⟩
    simp only [save_to_sheet, if_neg hc]
  · intro ws header rows h
    simp only [save_to_sheet, if_pos h]
  · intro ws h
    obtain ⟨cells⟩ := ws
    cases cells with
    | nil => simp [ensure_avatar_column, row_values_1] at h ⊢
    | cons hd rest =>
      have hh : "avatar_base64" ∉ hd := by simpa [row_values_1] using h
      simp [ensure_avatar_column, row_values_1, hh]
  · intro ws h
    simp [ensure_avatar_column, h]

/-- C5 (witness): the three behaviours at concrete worksheets — append on a
sheet with a valid header, bootstrap on an empty sheet, and self-healing of
a Users header without and with the avatar column. -/
theorem save_to_sheet_contract_witness :
    (save_to_sheet
        ⟨[["日期", "品項", "數量", "類別", "金額", "使用者"],
          ["2024-03-01", "Milk", "2", "Food", "80", "alice"]]⟩
        ["日期", "品項", "數量", "類別", "金額", "使用者"]
        [["2024-03-02", "Tea", "1", "Food", "50", "bob"]]).cells =
      [["日期", "品項", "數量", "類別", "金額", "使用者"],
       ["2024-03-01", "Milk", "2", "Food", "80", "alice"]] ++
      [["2024-03-02", "Tea", "1", "Food", "50", "bob"]] ∧
    (save_to_sheet ⟨[]⟩
        ["日期", "品項", "數量", "類別", "金額", "使用者"]
        [["2024-03-02", "Tea", "1", "Food", "50", "bob"]]).cells =
      ["日期", "品項", "數量", "類別", "金額", "使用者"] ::
      [["2024-03-02", "Tea", "1", "Food", "50", "bob"]] ∧
    (row_values_1 (ensure_avatar_column
        ⟨[["username", "hashed_password"], ["alice", "h1"]]⟩) =
      ["username", "hashed_password"] ++ ["avatar_base64"] ∧
     (ensure_avatar_column
        ⟨[["username", "hashed_password"], ["alice", "h1"]]⟩).cells.tail =
      ([["username", "hashed_password"], ["alice", "h1"]] :
        List (List String)).tail) ∧
    ensure_avatar_column ⟨[["username", "hashed_password", "avatar_base64"]]⟩ =
      ⟨[["username", "hashed_password", "avatar_base64"]]⟩ :=
  ⟨save_to_sheet_contract.1 _ _ _ (by decide),
   save_to_sheet_contract.2.1 ⟨[]⟩ _ _ (Or.inl rfl),
   save_to_sheet_contract.2.2.1 _ (by decide),
   save_to_sheet_contract.2.2.2 _ (by decide)⟩

/-- C7: whenever the extraction result is absent or malformed (surfacing as
none), lacks an items key, or contains zero items, the normalization step
emits exactly one placeholder row — today's date, empty name, quantity 1,
category 其他, amount 0 — instead of failing. -/
theorem parse_result_placeholder (today : String) (parsed : Option ParsedData)
    (h : parsed = none ∨ (∃ d, parsed = some ⟨d, none⟩) ∨
      (∃ d, parsed = some ⟨d, some []⟩)) :
    parse_result_rows today parsed =
      [⟨today, some "", some 1, some "其他", some 0⟩] := by
  rcases h with rfl | ⟨d, rfl⟩ | ⟨d, rfl⟩ <;> rfl

/-- C7 (witness): the placeholder at a concrete date for an extraction that
returned items:[]. -/
theorem parse_result_placeholder_witness :
    parse_result_rows "2026-10-12" (some ⟨some "2026-10-01", some []⟩) =
      [⟨"2026-10-12", some "", some 1, some "其他", some 0⟩] :=
  parse_result_placeholder "2026-10-12" (some ⟨some "2026-10-01", some []⟩)
    (Or.inr (Or.inr ⟨some "2026-10-01", rfl⟩))

/-! ## Account purge lemmas -/

theorem delete_first_matching_row_none (q : String) (rows : List (List String))
    (h : ∀ row ∈ rows, q ∉ row) : delete_first_matching_row q rows = none := by
  induction rows with
  | nil => rfl
  | cons row rest ih =>
    have h1 : q ∉ row := h row (by simp)
    simp only [delete_first_matching_row, if_neg h1]
    rw [ih (fun r hr => h r (by simp [hr]))]
    rfl

theorem delete_first_matching_row_found (q : String) (pre : List (List String)) :
    ∀ (row0 : List String) (post : List (List String)),
      q ∈ row0 → (∀ row ∈ pre, q ∉ row) →
      delete_first_matching_row q (pre ++ row0 :: post) = some (pre ++ post) := by
  induction pre with
  | nil =>
    intro row0 post hq _
    simp [delete_first_matching_row, hq]
  | cons r pre ih =>
    intro row0 post hq hpre
    have hr : q ∉ r := hpre r (by simp)
    have hih := ih row0 post hq (fun row hrow => hpre row (by simp [hrow]))
    simp [delete_first_matching_row, hr, hih]

/-- C2 (amended): when no cell anywhere in the Users sheet equals the
username, delete_user fails with NotFound and leaves both the Users sheet
and the ledger unchanged; and whenever the first row of the Users sheet
containing a cell equal to the username is that user's credential row (its
first cell holds the username) — in particular the name collides with no
header label and with no hash or avatar cell of an earlier row —
delete_user succeeds, removes exactly that credential row, rewrites the
ledger to all and only the rows whose owner differs from the username (a
filter, so the remainder keeps its order, and only the header is left when
nothing remains), and, when the username occurs nowhere else in the sheet,
re-running the purge on the resulting state returns NotFound leaving it
unchanged. -/
theorem delete_user_spec (n : String) (s : AppState) :
    ((∀ row ∈ s.users_ws, n ∉ row) → delete_user n s = (false, s)) ∧
    (∀ (pre : List (List String)) (credRest : List String)
        (post : List (List String)),
      s.users_ws = pre ++ (n :: credRest) :: post →
      (∀ row ∈ pre, n ∉ row) →
      delete_user n s =
        (true, ⟨pre ++ post, s.ledger.filter (fun r => !(r.owner == n))⟩) ∧
      ((∀ row ∈ pre ++ post, n ∉ row) →
        delete_user n
            ⟨pre ++ post, s.ledger.filter (fun r => !(r.owner == n))⟩ =
          (false,
            ⟨pre ++ post, s.ledger.filter (fun r => !(r.owner == n))⟩))) := by
  constructor
  · intro h
    simp [delete_user, delete_first_matching_row_none n s.users_ws h]
  · intro pre credRest post hws hpre
    have hf := delete_first_matching_row_found n pre (n :: credRest) post
      (by simp) hpre
    constructor
    · simp [delete_user, hws, hf]
    · intro hall
      simp [delete_user, delete_first_matching_row_none n (pre ++ post) hall]

/-- C2 (witness): the amended contract at a concrete Users sheet — purging
a name matching no cell is NotFound with no change; purging alice, whose
first row-major match is her credential row, succeeds, removes that row
and exactly her ledger rows; and re-running the purge on the purged state
is NotFound leaving it unchanged. -/
theorem delete_user_spec_witness :
    delete_user "zoe"
        ⟨[["username", "hashed_password", "avatar_base64"],
          ["alice", "h1", "a1"], ["bob", "h2", "a2"]],
         [⟨"2024-03-01", "Milk", 2, "Food", 80, "alice"⟩,
          ⟨"2024-03-01", "Tea", 1, "Food", 50, "bob"⟩]⟩ =
      (false,
        ⟨[["username", "hashed_password", "avatar_base64"],
          ["alice", "h1", "a1"], ["bob", "h2", "a2"]],
         [⟨"2024-03-01", "Milk", 2, "Food", 80, "alice"⟩,
          ⟨"2024-03-01", "Tea", 1, "Food", 50, "bob"⟩]⟩) ∧
    delete_user "alice"
        ⟨[["username", "hashed_password", "avatar_base64"],
          ["alice", "h1", "a1"], ["bob", "h2", "a2"]],
         [⟨"2024-03-01", "Milk", 2, "Food", 80, "alice"⟩,
          ⟨"2024-03-01", "Tea", 1, "Food", 50, "bob"⟩]⟩ =
      (true,
        ⟨[["username", "hashed_password", "avatar_base64"],
          ["bob", "h2", "a2"]],
         ([⟨"2024-03-01", "Milk", 2, "Food", 80, "alice"⟩,
           ⟨"2024-03-01", "Tea", 1, "Food", 50, "bob"⟩] :
             List SavedRow).filter (fun r => !(r.owner == "alice"))⟩) ∧
    delete_user "alice"
        ⟨[["username", "hashed_password", "avatar_base64"],
          ["bob", "h2", "a2"]],
         ([⟨"2024-03-01", "Milk", 2, "Food", 80, "alice"⟩,
           ⟨"2024-03-01", "Tea", 1, "Food", 50, "bob"⟩] :
             List SavedRow).filter (fun r => !(r.owner == "alice"))⟩ =
      (false,
        ⟨[["username", "hashed_password", "avatar_base64"],
          ["bob", "h2", "a2"]],
         ([⟨"2024-03-01", "Milk", 2, "Food", 80, "alice"⟩,
           ⟨"2024-03-01", "Tea", 1, "Food", 50, "bob"⟩] :
             List SavedRow).filter (fun r => !(r.owner == "alice"))⟩) :=
  ⟨(delete_user_spec "zoe"
      ⟨[["username", "hashed_password", "avatar_base64"],
        ["alice", "h1", "a1"], ["bob", "h2", "a2"]],
       [⟨"2024-03-01", "Milk", 2, "Food", 80, "alice"⟩,
        ⟨"2024-03-01", "Tea", 1, "Food", 50, "bob"⟩]⟩).1 (by decide),
   ((delete_user_spec "alice"
      ⟨[["username", "hashed_password", "avatar_base64"],
        ["alice", "h1", "a1"], ["bob", "h2", "a2"]],
       [⟨"2024-03-01", "Milk", 2, "Food", 80, "alice"⟩,
        ⟨"2024-03-01", "Tea", 1, "Food", 50, "bob"⟩]⟩).2
      [["username", "hashed_password", "avatar_base64"]] ["h1", "a1"]
      [["bob", "h2", "a2"]] rfl (by decide)).1,
   ((delete_user_spec "alice"
      ⟨[["username", "hashed_password", "avatar_base64"],
        ["alice", "h1", "a1"], ["bob", "h2", "a2"]],
       [⟨"2024-03-01", "Milk", 2, "Food", 80, "alice"⟩,
        ⟨"2024-03-01", "Tea", 1, "Food", 50, "bob"⟩]⟩).2
      [["username", "hashed_password", "avatar_base64"]] ["h1", "a1"]
      [["bob", "h2", "a2"]] rfl (by decide)).2 (by decide)⟩

/-- C2 (counterexample): users_ws.find also scans the header row, so
purging the username "username" (registration only blocks the admin name
and duplicates, so it is registerable) matches header cell A1 and deletes
the header row: with such a user present, delete_user reports success and
removes her ledger rows, yet her credential row ["username", "h1", "a1"]
is still in the Users sheet — the credential row is not removed; and on a
sheet where no user named "username" exists at all, delete_user still
reports success and deletes the header row instead of failing with
NotFound and leaving both collections unchanged. -/
theorem delete_user_header_collision_counterexample :
    (delete_user "username"
        ⟨[["username", "hashed_password", "avatar_base64"],
          ["username", "h1", "a1"], ["bob", "h2", "a2"]],
         [⟨"2024-03-01", "Milk", 2, "Food", 80, "username"⟩]⟩ =
      (true,
        ⟨[["username", "h1", "a1"], ["bob", "h2", "a2"]], []⟩) ∧
      ["username", "h1", "a1"] ∈
        [["username", "h1", "a1"], ["bob", "h2", "a2"]]) ∧
    delete_user "username"
        ⟨[["username", "hashed_password", "avatar_base64"],
          ["bob", "h2", "a2"]],
         [⟨"2024-03-01", "Tea", 1, "Food", 50, "bob"⟩]⟩ =
      (true,
        ⟨[["bob", "h2", "a2"]],
         [⟨"2024-03-01", "Tea", 1, "Food", 50, "bob"⟩]⟩) := by
  exact ⟨⟨by decide, by decide⟩, by decide⟩

/-- C10: whenever the login form handler succeeds and records an owner
identifier into the session, that identifier is the username exactly as
stored in the Users table for a record matching the typed name
case-insensitively and the typed password's hash — the typed casing never
becomes the ownership key. -/
theorem check_login_stored_casing (hash_password : String → String)
    (users : List UserRec) (typed password owner : String)
    (h : password_form_handler hash_password users typed password = some owner) :
    ∃ u ∈ users, owner = u.username ∧
      strLower u.username = strLower typed ∧
      u.hashed_password = hash_password password := by
  unfold password_form_handler check_login at h
  cases hf : users.find? (fun u =>
      strLower u.username == strLower typed &&
      u.hashed_password == hash_password password) with
  | none => rw [hf] at h; simp at h
  | some u =>
    rw [hf] at h
    simp only [Option.some.injEq] at h
    have hmem := List.mem_of_find?_eq_some hf
    have hp := List.find?_some hf
    simp only [Bool.and_eq_true, beq_iff_eq] at hp
    exact ⟨u, hmem, h.symm, hp.1, hp.2⟩

/-- C10 (witness): typing "alice" for the stored user "Alice" logs in and
records the stored casing "Alice" as the session owner. -/
theorem check_login_stored_casing_witness :
    ∃ u ∈ ([⟨"Alice", "H", ""⟩] : List UserRec), "Alice" = u.username ∧
      strLower u.username = strLower "alice" ∧
      u.hashed_password = (fun _ : String => "H") "pw" :=
  check_login_stored_casing (fun _ => "H") [⟨"Alice", "H", ""⟩]
    "alice" "pw" "Alice" (by decide)
